import Mathlib

/-!
Shallow embedding of the validation/decision core of the fraud-model rollout
repository, together with proofs about it.

The embedding covers:
* `src/online-validation.py`: the `OnlineValidator` class — transaction buffer
  (a `deque(maxlen=N)`), transaction preprocessing, the V2 inference payload,
  delayed-feedback collection, the drift scorer, the windowed performance
  evaluator (precision / recall / F1 / ROC-AUC / confusion matrix), the alert
  checker, and the recall-improvement / precision-stability comparison of
  `run_validation_cycle`.
* `src/offline-validation.py`: the Phase-4 deployment decision gate.
* `src/threshold-tuning.py`: `find_optimal_threshold`.
* `scripts/replay_transactions.py`: the inference payload it builds.

Python floats are modelled as rationals (`ℚ`); a float expression whose value
can be NaN is modelled as `Option ℚ` with `none` standing for NaN.  Timestamps
are modelled as rational time coordinates (minutes); `datetime` subtraction and
comparison become subtraction and comparison in `ℚ`.  scikit-learn metric calls
are embedded by their defining formulas for binary 0/1 data, which is the only
shape of data this pipeline stores (`prediction_class = int(prob > 0.5)` and
`actual_class = int(row['Class'])`).
-/

/-- Embeds `TransactionResult` (`src/online-validation.py`, lines 60-70):
container for one scored transaction.  `features` is `Optional` in the source
(default `None`), and the source additionally treats an empty feature list as
absent (Python truthiness), which the evaluator below reproduces. -/
structure TransactionResult where
  transaction_id : String
  timestamp : ℚ
  model_name : String
  prediction_prob : ℚ
  prediction_class : ℤ
  actual_class : Option ℤ := none
  feedback_received : Bool := false
  features : Option (List ℚ) := none
deriving Repr, DecidableEq

/-- Embeds `ValidationResult` (`src/online-validation.py`, lines 47-58).
`confusion_matrix` is the `sklearn.metrics.confusion_matrix` value: a square
matrix of counts indexed by the sorted distinct labels; entries are naturals,
so the "non-negative integers" part of the data-model invariant is carried by
the type.  `drift_score` is `Option ℚ` because the drift computation can
produce NaN (see `calculateDriftScore`). -/
structure ValidationResult where
  timestamp : ℚ
  model_name : String
  precision : ℚ
  recall_score : ℚ
  f1_score : ℚ
  auc_score : ℚ
  confusion_matrix : List (List ℕ)
  sample_size : ℕ
  drift_score : Option ℚ := some 0
deriving Repr, DecidableEq

/-- Constant `PERFORMANCE_THRESHOLDS["min_precision"] = 0.85` (line 40). -/
def minPrecisionThreshold : ℚ := 17/20

/-- Constant `PERFORMANCE_THRESHOLDS["min_recall"] = 0.75` (line 41). -/
def minRecallThreshold : ℚ := 3/4

/-- Constant `PERFORMANCE_THRESHOLDS["min_f1"] = 0.80` (line 42). -/
def minF1Threshold : ℚ := 4/5

/-- Constant `PERFORMANCE_THRESHOLDS["min_auc"] = 0.85` (line 43). -/
def minAucThreshold : ℚ := 17/20

/-- Constant `PERFORMANCE_THRESHOLDS["max_drift_score"] = 0.15` (line 44). -/
def maxDriftThreshold : ℚ := 3/20

/-- Constant `FEEDBACK_DELAY_MINUTES = 15` (line 36). -/
def feedbackDelayMinutes : ℚ := 15

/-- The minimum sample size `10` hard-coded in `validate_model_performance`
(line 250: `if len(model_transactions) < 10`). -/
def minimumSampleSize : ℕ := 10

/-- The `deque(maxlen=10000)` capacity of the transaction buffer (line 78). -/
def transactionBufferCapacity : ℕ := 10000

/-! ### Transaction buffer (`collections.deque(maxlen=cap)`) -/

/-- One `append` on a `deque(maxlen=cap)`: if the deque is below capacity the
element is appended on the right; at capacity the oldest (leftmost) element is
dropped first.  (`self.transaction_buffer.append(...)`, line 168.) -/
def pushBounded {α : Type} (cap : ℕ) (buf : List α) (x : α) : List α :=
  if buf.length < cap then buf ++ [x] else buf.drop 1 ++ [x]

/-- A sequence of `append`s into an initially empty bounded buffer, as performed
by repeated `send_test_transaction` calls. -/
def appendAll {α : Type} (cap : ℕ) (xs : List α) : List α :=
  xs.foldl (pushBounded cap) []

/-! ### Binary classification metrics (the sklearn calls of lines 261-272) -/

/-- True positives: pairs with `y_true = 1` and `y_pred = 1`. -/
def tpCount (y_true y_pred : List ℤ) : ℕ :=
  (y_true.zip y_pred).countP (fun p => p.1 == 1 && p.2 == 1)

/-- False positives: pairs with `y_true = 0` and `y_pred = 1`. -/
def fpCount (y_true y_pred : List ℤ) : ℕ :=
  (y_true.zip y_pred).countP (fun p => p.1 == 0 && p.2 == 1)

/-- False negatives: pairs with `y_true = 1` and `y_pred = 0`. -/
def fnCount (y_true y_pred : List ℤ) : ℕ :=
  (y_true.zip y_pred).countP (fun p => p.1 == 1 && p.2 == 0)

/-- Embeds `precision_score(y_true, y_pred, zero_division=0)` on binary data:
`TP/(TP+FP)`, and `0` when the denominator is zero. -/
def precisionScore (y_true y_pred : List ℤ) : ℚ :=
  if tpCount y_true y_pred + fpCount y_true y_pred = 0 then 0
  else (tpCount y_true y_pred : ℚ) / ((tpCount y_true y_pred : ℚ) + (fpCount y_true y_pred : ℚ))

/-- Embeds `recall_score(y_true, y_pred, zero_division=0)` on binary data:
`TP/(TP+FN)`, and `0` when the denominator is zero. -/
def recallScore (y_true y_pred : List ℤ) : ℚ :=
  if tpCount y_true y_pred + fnCount y_true y_pred = 0 then 0
  else (tpCount y_true y_pred : ℚ) / ((tpCount y_true y_pred : ℚ) + (fnCount y_true y_pred : ℚ))

/-- Embeds `f1_score(y_true, y_pred, zero_division=0)` on binary data:
`2·TP/(2·TP+FP+FN)`, and `0` when the denominator is zero. -/
def f1Score (y_true y_pred : List ℤ) : ℚ :=
  if 2 * tpCount y_true y_pred + fpCount y_true y_pred + fnCount y_true y_pred = 0 then 0
  else 2 * (tpCount y_true y_pred : ℚ) /
    (2 * (tpCount y_true y_pred : ℚ) + (fpCount y_true y_pred : ℚ) + (fnCount y_true y_pred : ℚ))

/-- Contribution of one (positive score, negative score) pair to the
Mann–Whitney form of the ROC-AUC: `1` if the positive is ranked higher,
`1/2` on a tie, `0` otherwise. -/
def pairScore (p n : ℚ) : ℚ := if n < p then 1 else if p = n then 1/2 else 0

/-- Predicted probabilities of the positive-class (`y = 1`) samples. -/
def posScores (y_true : List ℤ) (y_prob : List ℚ) : List ℚ :=
  ((y_true.zip y_prob).filter (fun a => a.1 == 1)).map Prod.snd

/-- Predicted probabilities of the negative-class (`y = 0`) samples. -/
def negScores (y_true : List ℤ) (y_prob : List ℚ) : List ℚ :=
  ((y_true.zip y_prob).filter (fun a => a.1 == 0)).map Prod.snd

/-- Embeds `roc_auc_score(y_true, y_prob)` on binary data, in its Mann–Whitney
formulation: the tie-corrected fraction of (positive, negative) pairs ranked
correctly by the scores. -/
def rocAucScore (y_true : List ℤ) (y_prob : List ℚ) : ℚ :=
  ((posScores y_true y_prob).map
      (fun p => ((negScores y_true y_prob).map (fun n => pairScore p n)).sum)).sum /
    (((posScores y_true y_prob).length : ℚ) * ((negScores y_true y_prob).length : ℚ))

/-- The label axis of `confusion_matrix(y_true, y_pred)`: the sorted distinct
values occurring in either argument. -/
def cmLabels (y_true y_pred : List ℤ) : List ℤ :=
  List.insertionSort (· ≤ ·) ((y_true ++ y_pred).dedup)

/-- Entry of `confusion_matrix`: the number of samples with true label `i`
and predicted label `j`. -/
def cmEntry (y_true y_pred : List ℤ) (i j : ℤ) : ℕ :=
  (y_true.zip y_pred).countP (fun p => p.1 == i && p.2 == j)

/-- Embeds `confusion_matrix(y_true, y_pred)` as a list of rows over the sorted
distinct labels. -/
def confusionMatrix (y_true y_pred : List ℤ) : List (List ℕ) :=
  (cmLabels y_true y_pred).map
    (fun i => (cmLabels y_true y_pred).map (fun j => cmEntry y_true y_pred i j))

/-! ### Drift scorer (`calculate_drift_score`, lines 211-235) -/

/-- Embeds `recent_df[col].mean()` for column index `j` of the recent window. -/
def colMean (rows : List (List ℚ)) (j : ℕ) : ℚ :=
  ((rows.map (fun r => r.getD j 0)).sum) / (rows.length : ℚ)

/-- The per-feature drift terms accumulated in the `drift_scores` list:
for each feature whose reference standard deviation is strictly positive,
`|mean(recent) - reference mean| / reference std`; features with
non-positive reference std are skipped (lines 223-229).  `stats` is the
per-feature `(mean, std)` pair list in feature-column order
(`self.baseline_stats`, fitted once at initialization, lines 110-114). -/
def driftTerms (stats : List (ℚ × ℚ)) (rows : List (List ℚ)) : List ℚ :=
  (List.range stats.length).filterMap (fun j =>
    if 0 < (stats.getD j (0, 0)).2
    then some (|colMean rows j - (stats.getD j (0, 0)).1| / (stats.getD j (0, 0)).2)
    else none)

/-- Embeds `calculate_drift_score(recent_features)`: `0.0` for an empty window
(line 213-214), otherwise `np.mean(drift_scores)`.  `np.mean` of an empty
list is NaN (not an exception), modelled as `none`; otherwise the arithmetic
mean of the drift terms. -/
def calculateDriftScore (stats : List (ℚ × ℚ)) (rows : List (List ℚ)) : Option ℚ :=
  if rows.isEmpty then some 0
  else if (driftTerms stats rows).isEmpty then none
  else some ((driftTerms stats rows).sum / ((driftTerms stats rows).length : ℚ))

/-! ### Performance evaluator (`validate_model_performance`, lines 237-297) -/

/-- The filter of lines 242-248: records for this model, with feedback
received, inside the lookback window, and carrying a ground-truth label. -/
def inWindow (model_name : String) (cutoff : ℚ) (t : TransactionResult) : Bool :=
  t.model_name == model_name && t.feedback_received &&
    decide (cutoff ≤ t.timestamp) && t.actual_class.isSome

/-- Embeds `model_transactions`: the buffered records selected for the window, in
buffer (insertion) order.  `cutoff = now - lookback_minutes`. -/
def windowFilter (buffer : List TransactionResult) (model_name : String)
    (now lookback : ℚ) : List TransactionResult :=
  buffer.filter (inWindow model_name (now - lookback))

/-- Embeds `y_true = [t.actual_class for t in model_transactions]` (line 255); the
filter guarantees `actual_class` is present, so `getD 0` never fires. -/
def windowTrue (ts : List TransactionResult) : List ℤ :=
  ts.map (fun t => t.actual_class.getD 0)

/-- Embeds `y_pred = [t.prediction_class for t in model_transactions]` (line 256). -/
def windowPred (ts : List TransactionResult) : List ℤ :=
  ts.map (fun t => t.prediction_class)

/-- Embeds `y_prob = [t.prediction_prob for t in model_transactions]` (line 257). -/
def windowProb (ts : List TransactionResult) : List ℚ :=
  ts.map (fun t => t.prediction_prob)

/-- Embeds `recent_features = [t.features for t in model_transactions if t.features]`
(line 275): Python truthiness drops both `None` and the empty list. -/
def windowFeatures (ts : List TransactionResult) : List (List ℚ) :=
  ts.filterMap (fun t =>
    match t.features with
    | some f => if f.isEmpty then none else some f
    | none => none)

/-- The `ValidationResult` built in lines 254-288 once the sample-size guard
has passed.  AUC is computed only when both classes are present in `y_true`
(`len(set(y_true)) > 1`, line 266) and is reported as `0.0` otherwise. -/
def evalResult (buffer : List TransactionResult) (stats : List (ℚ × ℚ))
    (model_name : String) (now lookback : ℚ) : ValidationResult :=
  { timestamp := now
    model_name := model_name
    precision := precisionScore (windowTrue (windowFilter buffer model_name now lookback))
      (windowPred (windowFilter buffer model_name now lookback))
    recall_score := recallScore (windowTrue (windowFilter buffer model_name now lookback))
      (windowPred (windowFilter buffer model_name now lookback))
    f1_score := f1Score (windowTrue (windowFilter buffer model_name now lookback))
      (windowPred (windowFilter buffer model_name now lookback))
    auc_score :=
      if 1 < (windowTrue (windowFilter buffer model_name now lookback)).dedup.length
      then rocAucScore (windowTrue (windowFilter buffer model_name now lookback))
        (windowProb (windowFilter buffer model_name now lookback))
      else 0
    confusion_matrix := confusionMatrix (windowTrue (windowFilter buffer model_name now lookback))
      (windowPred (windowFilter buffer model_name now lookback))
    sample_size := (windowFilter buffer model_name now lookback).length
    drift_score := calculateDriftScore stats
      (windowFeatures (windowFilter buffer model_name now lookback)) }

/-- Embeds `validate_model_performance(model_name, lookback_minutes)`: `None` when
fewer than `minimumSampleSize` selected records exist (lines 250-252, a soft
fail, not an exception), otherwise the computed `ValidationResult`. -/
def validateModelPerformance (buffer : List TransactionResult) (stats : List (ℚ × ℚ))
    (model_name : String) (now lookback : ℚ) : Option ValidationResult :=
  if (windowFilter buffer model_name now lookback).length < minimumSampleSize then none
  else some (evalResult buffer stats model_name now lookback)

/-! ### Alert checker (`check_performance_alerts`, lines 299-318) -/

/-- The drift comparison `result.drift_score > max_drift_score` as a Bool;
`NaN > x` is false in Python, so the `none` (NaN) case yields `false`. -/
def driftAlertFires (r : ValidationResult) : Bool :=
  match r.drift_score with
  | some d => decide (maxDriftThreshold < d)
  | none => false

/-- Embeds `check_performance_alerts(result)`: one formatted string per violated
threshold, in source order; the AUC threshold is only consulted when
`auc_score > 0` (line 312).  The Python `f"{x:.3f}"` float formatting is
abstracted by `toString` on `ℚ`; no property below depends on the digits,
only on the fixed message head of each alert. -/
def checkPerformanceAlerts (r : ValidationResult) : List String :=
  (if r.precision < minPrecisionThreshold
    then ["LOW PRECISION: " ++ toString r.precision ++ " < " ++ toString minPrecisionThreshold]
    else []) ++
  (if r.recall_score < minRecallThreshold
    then ["LOW RECALL: " ++ toString r.recall_score ++ " < " ++ toString minRecallThreshold]
    else []) ++
  (if r.f1_score < minF1Threshold
    then ["LOW F1-SCORE: " ++ toString r.f1_score ++ " < " ++ toString minF1Threshold]
    else []) ++
  (if 0 < r.auc_score ∧ r.auc_score < minAucThreshold
    then ["LOW AUC: " ++ toString r.auc_score ++ " < " ++ toString minAucThreshold]
    else []) ++
  (if driftAlertFires r
    then ["HIGH DRIFT: " ++ (match r.drift_score with | some d => toString d | none => "nan")
      ++ " > " ++ toString maxDriftThreshold]
    else [])

/-! ### Delayed feedback collection (`collect_delayed_feedback`, lines 196-209) -/

/-- The condition of lines 202-204: feedback not yet received, a ground-truth
label exists, and the record is older than the feedback delay
(`current_time - t.timestamp > delay`). -/
def feedbackEligible (now delay : ℚ) (t : TransactionResult) : Bool :=
  !t.feedback_received && t.actual_class.isSome && decide (delay < now - t.timestamp)

/-- The per-record mutation of line 206: set `feedback_received = True` on
eligible records, leave everything else untouched. -/
def markFeedback (now delay : ℚ) (t : TransactionResult) : TransactionResult :=
  if feedbackEligible now delay t then { t with feedback_received := true } else t

/-- Embeds `collect_delayed_feedback()`: walks the buffer, flips eligible records'
`feedback_received` flags to `True`, and returns the count of flips. -/
def collectDelayedFeedback (now delay : ℚ) (buffer : List TransactionResult) :
    List TransactionResult × ℕ :=
  (buffer.map (markFeedback now delay), buffer.countP (feedbackEligible now delay))

/-! ### Feature preprocessor (`_preprocess_transaction`, lines 183-194)

The fitted scaler is the frozen per-feature reference `mean` and reference
standard deviation `scale` computed once from the training data at
initialization (lines 99-120); `transform` standardizes each feature as
`(x - mean) / scale` in the fixed `feature_columns` order. -/

/-- Embeds `_preprocess_transaction(transaction_data)`: raises
`ValueError("Missing required feature: ...")` at the first required feature
key absent from the transaction (lines 187-189), otherwise the fixed-order
scaled vector.  The keyed transaction dict is modelled as a partial map. -/
def preprocessTransaction (cols : List String) (mean scale : String → ℚ)
    (txn : String → Option ℚ) : Except String (List ℚ) :=
  match cols.find? (fun c => (txn c).isNone) with
  | some c => Except.error ("Missing required feature: " ++ c)
  | none => Except.ok (cols.map (fun c => ((txn c).getD 0 - mean c) / scale c))

/-! ### Inference wire format (`send_test_transaction`, lines 126-155, and
`scripts/replay_transactions.py`, lines 115-141) -/

/-- Minimal JSON value universe for the inference request/response bodies. -/
inductive JsonVal where
  | num (q : ℚ)
  | str (s : String)
  | arr (items : List JsonVal)
  | obj (fields : List (String × JsonVal))

/-- Key lookup in a JSON object field list. -/
def jsonLookup (fields : List (String × JsonVal)) (k : String) : Option JsonVal :=
  fields.lookup k

/-- The V2 inference payload built by `send_test_transaction`
(lines 131-139): `data` is the flat scaled-feature list
(`scaled_features.tolist()` of a 1-D array). -/
def onlineInferencePayload (input_name : String) (scaled : List ℚ) : JsonVal :=
  .obj [("parameters", .obj [("content_type", .str "np")]),
        ("inputs", .arr [.obj [
          ("name", .str input_name),
          ("shape", .arr [.num 1, .num 30]),
          ("datatype", .str "FP32"),
          ("data", .arr (scaled.map .num))]])]

/-- The payload built by `scripts/replay_transactions.py`
(`preprocess_transaction`, lines 128-139): `data` is
`[scaled_features.tolist()]` — the flat list wrapped in one more list. -/
def replayInferencePayload (scaled : List ℚ) : JsonVal :=
  .obj [("parameters", .obj [("content_type", .str "np")]),
        ("inputs", .arr [.obj [
          ("name", .str "input_0"),
          ("shape", .arr [.num 1, .num 30]),
          ("datatype", .str "FP32"),
          ("data", .arr [.arr (scaled.map .num)])]])]

/-- The `data` field of the first entry of `inputs` of a request payload. -/
def payloadDataField (payload : JsonVal) : Option JsonVal :=
  match payload with
  | .obj fields =>
    match jsonLookup fields "inputs" with
    | some (.arr (first :: _)) =>
      match first with
      | .obj f2 => jsonLookup f2 "data"
      | _ => none
    | _ => none
  | _ => none

/-- Whether a JSON value is a flat array of exactly `n` numbers. -/
def isFlatNumArray (v : JsonVal) (n : ℕ) : Bool :=
  match v with
  | .arr items =>
    items.length == n && items.all (fun x => match x with | .num _ => true | _ => false)
  | _ => false

/-- Embeds `float(result["outputs"][0]["data"][0])` (line 154): the fraud
probability extracted from a successful inference response. -/
def extractFraudProb (resp : JsonVal) : Option ℚ :=
  match resp with
  | .obj fields =>
    match jsonLookup fields "outputs" with
    | some (.arr (first :: _)) =>
      match first with
      | .obj f2 =>
        match jsonLookup f2 "data" with
        | some (.arr (.num q :: _)) => some q
        | _ => none
      | _ => none
    | _ => none
  | _ => none

/-! ### Online comparison checks (`run_validation_cycle`, lines 456-473) and
the offline Phase-4 deployment gate (`src/offline-validation.py`) -/

/-- Embeds `recall_improvement` (line 457): relative recall improvement of the
candidate over the baseline, in percent; `0` when the baseline recall is not
positive. -/
def recallImprovementPct (baseline candidate : ValidationResult) : ℚ :=
  if 0 < baseline.recall_score
  then (candidate.recall_score - baseline.recall_score) / baseline.recall_score * 100 else 0

/-- Embeds `precision_change` (line 458): relative precision change in percent;
`0` when the baseline precision is not positive. -/
def precisionChangePct (baseline candidate : ValidationResult) : ℚ :=
  if 0 < baseline.precision
  then (candidate.precision - baseline.precision) / baseline.precision * 100 else 0

/-- The online recall-improvement check of line 465:
`recall_improvement >= 5`. -/
def onlineRecallCheck (baseline candidate : ValidationResult) : Bool :=
  decide (5 ≤ recallImprovementPct baseline candidate)

/-- The online precision-stability check of line 470:
`abs(precision_change) <= 5`. -/
def onlinePrecisionCheck (baseline candidate : ValidationResult) : Bool :=
  decide (|precisionChangePct baseline candidate| ≤ 5)

/-- Embeds `recall_improvement_percent` of `src/offline-validation.py` (guarded by
`recall_v1_eval != 0`). -/
def offlineRecallImprovementPct (recall_v1 recall_v2 : ℚ) : ℚ :=
  if recall_v1 ≠ 0 then (recall_v2 - recall_v1) / recall_v1 * 100 else 0

/-- The Phase-4 deployment decision gate of `src/offline-validation.py`:
promote exactly when `recall_improvement_percent >= 5` and
`abs(precision_v2_eval - precision_v1_eval) <= 0.01`. -/
def offlinePromoteGate (precision_v1 precision_v2 recall_v1 recall_v2 : ℚ) : Bool :=
  decide (5 ≤ offlineRecallImprovementPct recall_v1 recall_v2) &&
    decide (|precision_v2 - precision_v1| ≤ 1/100)

/-- Modelled from the spec's words (REPORTING step / claim C4), for comparison
with `offlinePromoteGate`: a promote gate in which the precision-stability
criterion is the *relative* precision change within ±5%, i.e. the same
thresholds the online comparison uses. -/
def specDeploymentGate (precision_v1 precision_v2 recall_v1 recall_v2 : ℚ) : Bool :=
  decide (5 ≤ offlineRecallImprovementPct recall_v1 recall_v2) &&
    decide (|(if 0 < precision_v1
      then (precision_v2 - precision_v1) / precision_v1 * 100 else 0)| ≤ 5)

/-! ### Threshold tuning (`src/threshold-tuning.py`) -/

/-- One row of the `results` list built by `analyze_thresholds`. -/
structure ThresholdResult where
  threshold : ℚ
  precision : ℚ
  recall_score : ℚ
  f1_score : ℚ
  false_positives : ℕ
  false_negatives : ℕ
deriving Repr, DecidableEq

/-- Python's `max(l, key=key)`: the first element attaining the maximal key
(`None` on the empty list, where Python raises `ValueError`). -/
def pyMaxBy (key : ThresholdResult → ℚ) : List ThresholdResult → Option ThresholdResult
  | [] => none
  | x :: xs => some (xs.foldl (fun best r => if key best < key r then r else best) x)

/-- Embeds `find_optimal_threshold(results, min_precision)` (lines 153-175): among
the results meeting the minimum precision, the one with the highest recall;
if none meets it, the result with the best F1 score. -/
def find_optimal_threshold (results : List ThresholdResult) (min_precision : ℚ) :
    Option ThresholdResult :=
  let valid_results := results.filter (fun r => min_precision ≤ r.precision)
  if valid_results.isEmpty then pyMaxBy (fun r => r.f1_score) results
  else pyMaxBy (fun r => r.recall_score) valid_results

/-- Default `min_precision=0.95` of `find_optimal_threshold`. -/
def defaultMinPrecision : ℚ := 19/20

/-- A concrete demonstration record: model "m", timestamp 100, feedback
received, binary ground-truth label, used to exercise the evaluator on
concrete buffers. -/
def demoRecord (i : ℕ) : TransactionResult :=
  { transaction_id := toString i, timestamp := 100, model_name := "m",
    prediction_prob := if i % 2 = 0 then 9/10 else 1/10,
    prediction_class := if i % 2 = 0 then 1 else 0,
    actual_class := some (if i % 3 = 0 then 1 else 0),
    feedback_received := true }

/-- A concrete buffer of `n` demonstration records. -/
def demoBuffer (n : ℕ) : List TransactionResult := (List.range n).map demoRecord

/-- A placeholder `ValidationResult` used to instantiate theorems whose
conclusion does not depend on a particular result value. -/
def dummyValidation : ValidationResult :=
  { timestamp := 0, model_name := "", precision := 0, recall_score := 0, f1_score := 0,
    auc_score := 0, confusion_matrix := [], sample_size := 0, drift_score := some 0 }

/-! ## Helper lemmas -/

theorem pushBounded_foldl {α : Type} (cap : ℕ) (hcap : 0 < cap) :
    ∀ (xs buf : List α), buf.length ≤ cap →
      xs.foldl (pushBounded cap) buf = (buf ++ xs).drop (buf.length + xs.length - cap)
  | [], buf, h => by
    simp [Nat.sub_eq_zero_of_le h]
  | x :: xs, buf, h => by
    rw [List.foldl_cons]
    by_cases hlt : buf.length < cap
    · rw [pushBounded, if_pos hlt,
        pushBounded_foldl cap hcap xs (buf ++ [x]) (by simpa using hlt)]
      have hidx : (buf ++ [x]).length + xs.length - cap =
          buf.length + (x :: xs).length - cap := by
        simp; omega
      rw [hidx, List.append_assoc, List.singleton_append]
    · have hbuf : buf.length = cap := le_antisymm h (not_lt.mp hlt)
      have hne : 1 ≤ buf.length := by omega
      rw [pushBounded, if_neg hlt,
        pushBounded_foldl cap hcap xs (buf.drop 1 ++ [x]) (by simp; omega)]
      have hlen : (buf.drop 1 ++ [x]).length + xs.length - cap = xs.length := by
        simp; omega
      rw [hlen, List.append_assoc, List.singleton_append,
        ← List.drop_append_of_le_length hne, List.drop_drop]
      have hidx : buf.length + (x :: xs).length - cap = xs.length + 1 := by
        simp; omega
      rw [hidx, Nat.add_comm 1 xs.length]

theorem zip_map_self {α β : Type} (f : α → β) :
    ∀ l : List α, l.zip (l.map f) = l.map (fun t => (t, f t))
  | [] => rfl
  | x :: xs => by simp [zip_map_self f xs]

theorem pyFold_spec (key : ThresholdResult → ℚ) :
    ∀ (xs : List ThresholdResult) (b : ThresholdResult),
      (xs.foldl (fun best r => if key best < key r then r else best) b = b ∨
        xs.foldl (fun best r => if key best < key r then r else best) b ∈ xs) ∧
      key b ≤ key (xs.foldl (fun best r => if key best < key r then r else best) b) ∧
      ∀ y ∈ xs, key y ≤ key (xs.foldl (fun best r => if key best < key r then r else best) b)
  | [], b => by simp
  | x :: xs, b => by
    rw [List.foldl_cons]
    obtain ⟨hmem, hb, hall⟩ := pyFold_spec key xs (if key b < key x then x else b)
    by_cases hx : key b < key x
    · rw [if_pos hx] at hmem hb hall ⊢
      refine ⟨?_, le_trans (le_of_lt hx) hb, ?_⟩
      · rcases hmem with h | h
        · exact Or.inr (by rw [h]; exact List.mem_cons_self x xs)
        · exact Or.inr (List.mem_cons_of_mem x h)
      · intro y hy
        rcases List.mem_cons.mp hy with rfl | hy'
        · exact hb
        · exact hall y hy'
    · rw [if_neg hx] at hmem hb hall ⊢
      refine ⟨?_, hb, ?_⟩
      · rcases hmem with h | h
        · exact Or.inl h
        · exact Or.inr (List.mem_cons_of_mem x h)
      · intro y hy
        rcases List.mem_cons.mp hy with rfl | hy'
        · exact le_trans (not_lt.mp hx) hb
        · exact hall y hy'

theorem pyMaxBy_spec (key : ThresholdResult → ℚ) (l : List ThresholdResult) (h : l ≠ []) :
    ∃ m, pyMaxBy key l = some m ∧ m ∈ l ∧ ∀ y ∈ l, key y ≤ key m := by
  cases l with
  | nil => exact absurd rfl h
  | cons x xs =>
    obtain ⟨hmem, hb, hall⟩ := pyFold_spec key xs x
    refine ⟨_, rfl, ?_, ?_⟩
    · rcases hmem with h' | h'
      · exact by rw [h']; exact List.mem_cons_self x xs
      · exact List.mem_cons_of_mem x h'
    · intro y hy
      rcases List.mem_cons.mp hy with rfl | hy'
      · exact hb
      · exact hall y hy'

/-! ## Claim theorems -/

/-- Claim C6: the Transaction Buffer holds at most its capacity `N` of the most
recently appended records, in insertion order, with FIFO eviction: appending any
sequence of records into an initially empty buffer of positive capacity leaves
exactly the last `N` appended records in their original relative order; in
particular, with capacity 5, appending 7 records leaves exactly the 5
most-recently appended. -/
theorem transaction_buffer_fifo :
    (∀ (α : Type) (cap : ℕ) (xs : List α), 0 < cap →
      appendAll cap xs = xs.drop (xs.length - cap) ∧ (appendAll cap xs).length ≤ cap) ∧
    appendAll 5 [1, 2, 3, 4, 5, 6, 7] = [3, 4, 5, 6, 7] := by
  constructor
  · intro α cap xs hcap
    have h := pushBounded_foldl cap hcap xs [] (by simp)
    simp only [List.nil_append, List.length_nil, Nat.zero_add] at h
    rw [appendAll, h]
    refine ⟨rfl, ?_⟩
    rw [List.length_drop]
    omega
  · rfl

/-- Witness for C6 at a concrete input: capacity 3, four appends. -/
theorem transaction_buffer_fifo_witness :
    appendAll 3 ["a", "b", "c", "d"] = ["b", "c", "d"] ∧
      (appendAll 3 ["a", "b", "c", "d"]).length ≤ 3 := by
  have h := transaction_buffer_fifo.1 String 3 ["a", "b", "c", "d"] (by decide)
  exact ⟨by rw [h.1]; rfl, h.2⟩

theorem markFeedback_flag (now delay : ℚ) (t : TransactionResult) :
    (markFeedback now delay t).feedback_received =
      (t.feedback_received || feedbackEligible now delay t) := by
  by_cases he : feedbackEligible now delay t
  · rw [markFeedback, if_pos he, he]
    simp
  · rw [markFeedback, if_neg he, Bool.eq_false_iff.mpr he]
    simp

theorem feedbackEligible_unfold (now delay : ℚ) (t : TransactionResult) :
    feedbackEligible now delay t = true ↔
      t.feedback_received = false ∧ t.actual_class ≠ none ∧ delay < now - t.timestamp := by
  simp [feedbackEligible, Option.isSome_iff_ne_none, and_assoc]

/-- Claim C9: `collect_delayed_feedback` never resets a `feedback_received`
flag that is already `True`; it sets the flag to `True` exactly for records
that are unflagged, carry a ground-truth label, and are older than the
feedback delay; it returns exactly the number of flags it flipped from
`False` to `True`; and an immediate second call (same clock reading) flips
nothing and returns 0. -/
theorem collect_feedback_properties :
    ∀ (now delay : ℚ) (buffer : List TransactionResult),
      ((collectDelayedFeedback now delay buffer).1.length = buffer.length) ∧
      (∀ p ∈ buffer.zip (collectDelayedFeedback now delay buffer).1,
        p.2.feedback_received = (p.1.feedback_received || feedbackEligible now delay p.1) ∧
        (p.1.feedback_received = false → p.2.feedback_received = true →
          p.1.actual_class ≠ none ∧ delay < now - p.1.timestamp)) ∧
      ((collectDelayedFeedback now delay buffer).2 =
        (buffer.zip (collectDelayedFeedback now delay buffer).1).countP
          (fun p => !p.1.feedback_received && p.2.feedback_received)) ∧
      ((collectDelayedFeedback now delay (collectDelayedFeedback now delay buffer).1).2 = 0) := by
  intro now delay buffer
  have hzip : buffer.zip (collectDelayedFeedback now delay buffer).1 =
      buffer.map (fun t => (t, markFeedback now delay t)) := zip_map_self _ buffer
  refine ⟨by simp [collectDelayedFeedback], ?_, ?_, ?_⟩
  · intro p hp
    rw [hzip] at hp
    obtain ⟨t, _, rfl⟩ := List.mem_map.mp hp
    refine ⟨markFeedback_flag now delay t, ?_⟩
    intro hf ht
    rw [markFeedback_flag now delay t, hf, Bool.false_or] at ht
    exact ((feedbackEligible_unfold now delay t).mp ht).2
  · rw [hzip, collectDelayedFeedback, List.countP_map]
    apply List.countP_congr
    intro t _
    simp only [Function.comp_apply]
    rw [markFeedback_flag now delay t]
    cases hf : t.feedback_received
    · simp
    · simp [feedbackEligible, hf]
  · rw [collectDelayedFeedback, collectDelayedFeedback, List.countP_map, List.countP_eq_zero]
    intro t _
    show ¬ feedbackEligible now delay (markFeedback now delay t) = true
    by_cases he : feedbackEligible now delay t
    · rw [feedbackEligible, markFeedback_flag now delay t, he]
      simp
    · rw [markFeedback, if_neg he]
      exact he

/-- Witness for C9 at a concrete input: a buffer with one eligible record,
one already-flagged record and one unlabeled record; the clock is at 20
minutes and the delay is the configured 15 minutes. -/
theorem collect_feedback_properties_witness :
    (collectDelayedFeedback 20 feedbackDelayMinutes
      (collectDelayedFeedback 20 feedbackDelayMinutes
        [{ transaction_id := "a", timestamp := 0, model_name := "m", prediction_prob := 1,
           prediction_class := 1, actual_class := some 1 },
         { transaction_id := "b", timestamp := 0, model_name := "m", prediction_prob := 1,
           prediction_class := 1, actual_class := some 0, feedback_received := true },
         { transaction_id := "c", timestamp := 0, model_name := "m", prediction_prob := 1,
           prediction_class := 0 }]).1).2 = 0 :=
  (collect_feedback_properties 20 feedbackDelayMinutes _).2.2.2

/-- Claim C10: on a non-empty results list, `find_optimal_threshold` returns
an element of the list; when at least one entry meets the minimum precision it
returns an entry meeting it whose recall is maximal among all such entries;
otherwise it returns an entry of maximal F1 score over the whole list. -/
theorem find_optimal_threshold_spec :
    ∀ (results : List ThresholdResult) (min_precision : ℚ), results ≠ [] →
      ∃ best, find_optimal_threshold results min_precision = some best ∧
        best ∈ results ∧
        ((∃ x ∈ results, min_precision ≤ x.precision) →
          min_precision ≤ best.precision ∧
            ∀ x ∈ results, min_precision ≤ x.precision → x.recall_score ≤ best.recall_score) ∧
        ((∀ x ∈ results, x.precision < min_precision) →
          ∀ x ∈ results, x.f1_score ≤ best.f1_score) := by
  intro results min_precision hne
  by_cases hv : (results.filter (fun r => min_precision ≤ r.precision)).isEmpty
  · have hnil : results.filter (fun r => min_precision ≤ r.precision) = [] :=
      List.isEmpty_iff.mp hv
    obtain ⟨m, hm, hmem, hall⟩ := pyMaxBy_spec (fun r => r.f1_score) results hne
    refine ⟨m, ?_, hmem, ?_, fun _ => hall⟩
    · rw [find_optimal_threshold]
      simp only [hv, if_true]
      exact hm
    · rintro ⟨x, hx, hxp⟩
      have : x ∈ results.filter (fun r => min_precision ≤ r.precision) :=
        List.mem_filter.mpr ⟨hx, by simpa using hxp⟩
      rw [hnil] at this
      exact absurd this (List.not_mem_nil x)
  · have hvne : results.filter (fun r => min_precision ≤ r.precision) ≠ [] := by
      intro h
      rw [h] at hv
      exact hv rfl
    obtain ⟨m, hm, hmem, hall⟩ :=
      pyMaxBy_spec (fun r => r.recall_score) (results.filter (fun r => min_precision ≤ r.precision)) hvne
    obtain ⟨hmr, hmp⟩ := List.mem_filter.mp hmem
    refine ⟨m, ?_, hmr, ?_, ?_⟩
    · rw [find_optimal_threshold]
      simp only [hv, if_false]
      exact hm
    · intro _
      refine ⟨by simpa using hmp, ?_⟩
      intro x hx hxp
      exact hall x (List.mem_filter.mpr ⟨hx, by simpa using hxp⟩)
    · intro hlt
      exact absurd (by simpa using hmp) (not_le.mpr (hlt m hmr))

/-- Witness for C10 at a concrete two-element results list with the default
minimum precision. -/
theorem find_optimal_threshold_spec_witness :
    ∃ best,
      find_optimal_threshold
        [{ threshold := 1/2, precision := 24/25, recall_score := 4/5, f1_score := 87/100,
           false_positives := 3, false_negatives := 20 },
         { threshold := 7/10, precision := 49/50, recall_score := 7/10, f1_score := 82/100,
           false_positives := 1, false_negatives := 30 }] defaultMinPrecision = some best ∧
      best ∈
        [{ threshold := 1/2, precision := 24/25, recall_score := 4/5, f1_score := 87/100,
           false_positives := 3, false_negatives := 20 },
         { threshold := 7/10, precision := 49/50, recall_score := 7/10, f1_score := 82/100,
           false_positives := 1, false_negatives := 30 }] := by
  obtain ⟨best, h1, h2, _⟩ :=
    find_optimal_threshold_spec
      [{ threshold := 1/2, precision := 24/25, recall_score := 4/5, f1_score := 87/100,
         false_positives := 3, false_negatives := 20 },
       { threshold := 7/10, precision := 49/50, recall_score := 7/10, f1_score := 82/100,
         false_positives := 1, false_negatives := 30 }] defaultMinPrecision (by simp)
  exact ⟨best, h1, h2⟩

theorem find?_congr_on {α : Type} (p q : α → Bool) :
    ∀ l : List α, (∀ a ∈ l, p a = q a) → l.find? p = l.find? q
  | [], _ => rfl
  | x :: xs, h => by
    rw [List.find?_cons, List.find?_cons, h x (List.mem_cons_self x xs)]
    cases q x
    · exact find?_congr_on p q xs (fun a ha => h a (List.mem_cons_of_mem x ha))
    · rfl

/-- Claim C7: once fitted, `_preprocess_transaction` fails (with the
missing-feature error) exactly when some required feature key is absent from
the transaction; otherwise it returns the fixed-order vector of
`(x - mean) / std` standardized feature values, so it is a pure function of
the transaction's values at the required keys (equal transactions give
identical vectors). -/
theorem preprocess_transaction_spec :
    ∀ (cols : List String) (mean scale : String → ℚ) (txn : String → Option ℚ),
      ((∃ msg, preprocessTransaction cols mean scale txn = .error msg) ↔
        ∃ c ∈ cols, txn c = none) ∧
      (∀ v, preprocessTransaction cols mean scale txn = .ok v →
        v = cols.map (fun c => ((txn c).getD 0 - mean c) / scale c) ∧ v.length = cols.length) ∧
      (∀ txn' : String → Option ℚ, (∀ c ∈ cols, txn c = txn' c) →
        preprocessTransaction cols mean scale txn = preprocessTransaction cols mean scale txn') := by
  intro cols mean scale txn
  refine ⟨?_, ?_, ?_⟩
  · cases hf : cols.find? (fun c => (txn c).isNone) with
    | some c =>
      constructor
      · intro _
        exact ⟨c, List.mem_of_find?_eq_some hf,
          Option.isNone_iff_eq_none.mp (by simpa using List.find?_some hf)⟩
      · intro _
        exact ⟨"Missing required feature: " ++ c, by rw [preprocessTransaction, hf]⟩
    | none =>
      constructor
      · rintro ⟨msg, hmsg⟩
        rw [preprocessTransaction, hf] at hmsg
        exact absurd hmsg (by simp)
      · rintro ⟨c, hc, hcnone⟩
        have := List.find?_eq_none.mp hf c hc
        simp [hcnone] at this
  · intro v hv
    cases hf : cols.find? (fun c => (txn c).isNone) with
    | some c =>
      rw [preprocessTransaction, hf] at hv
      exact absurd hv (by simp)
    | none =>
      rw [preprocessTransaction, hf] at hv
      have hveq : v = cols.map (fun c => ((txn c).getD 0 - mean c) / scale c) := by
        injection hv with h
        exact h.symm
      exact ⟨hveq, by rw [hveq, List.length_map]⟩
  · intro txn' hpt
    rw [preprocessTransaction, preprocessTransaction,
      find?_congr_on (fun c => (txn c).isNone) (fun c => (txn' c).isNone) cols
        (fun c hc => show (txn c).isNone = (txn' c).isNone from by rw [hpt c hc])]
    cases cols.find? (fun c => (txn' c).isNone) with
    | some c => rfl
    | none =>
      show Except.ok (cols.map (fun c => ((txn c).getD 0 - mean c) / scale c)) =
        Except.ok (cols.map (fun c => ((txn' c).getD 0 - mean c) / scale c))
      congr 1
      exact List.map_congr_left (fun c hc =>
        show ((txn c).getD 0 - mean c) / scale c = ((txn' c).getD 0 - mean c) / scale c from
          by rw [hpt c hc])

/-- Witness for C7 at concrete inputs: a transaction missing every feature
fails, and two syntactically different transactions agreeing on the required
keys preprocess identically. -/
theorem preprocess_transaction_spec_witness :
    (∃ msg, preprocessTransaction ["Time", "Amount"] (fun _ => 1) (fun _ => 2)
      (fun _ => none) = .error msg) ∧
    preprocessTransaction ["Time", "Amount"] (fun _ => 1) (fun _ => 2)
        (fun c => if c = "Time" then some 3 else some 5) =
      preprocessTransaction ["Time", "Amount"] (fun _ => 1) (fun _ => 2)
        (fun c => if c = "Time" then some 3 else if c = "junk" then some 99 else some 5) := by
  constructor
  · exact (preprocess_transaction_spec ["Time", "Amount"] (fun _ => 1) (fun _ => 2)
      (fun _ => none)).1.mpr ⟨"Time", by simp, rfl⟩
  · exact (preprocess_transaction_spec ["Time", "Amount"] (fun _ => 1) (fun _ => 2)
      (fun c => if c = "Time" then some 3 else some 5)).2.2 _
      (by
        intro c hc
        simp only [List.mem_cons, List.mem_singleton, List.not_mem_nil, or_false] at hc
        rcases hc with rfl | rfl <;> simp)

/-- Counterexample to claim C4 as stated: the offline Phase-4 deployment gate
is not governed by the ±5% *relative* precision-stability threshold the online
comparison uses.  With baseline precision 0.5, candidate precision 0.52,
baseline recall 0.5 and candidate recall 0.6, the relative precision change is
4% (within ±5%) and the recall improvement is 20% (≥ 5%), yet the offline gate
does not promote, because it requires the *absolute* precision difference to
be at most 0.01 and here it is 0.02. -/
theorem deployment_gate_counterexample :
    specDeploymentGate (1/2) (13/25) (1/2) (3/5) = true ∧
    offlinePromoteGate (1/2) (13/25) (1/2) (3/5) = false ∧
    ¬ (offlinePromoteGate (1/2) (13/25) (1/2) (3/5) =
        specDeploymentGate (1/2) (13/25) (1/2) (3/5)) := by
  have h1 : specDeploymentGate (1/2) (13/25) (1/2) (3/5) = true := by
    simp only [specDeploymentGate, offlineRecallImprovementPct, Bool.and_eq_true,
      decide_eq_true_eq]
    norm_num
  have h2 : offlinePromoteGate (1/2) (13/25) (1/2) (3/5) = false := by
    simp only [offlinePromoteGate, offlineRecallImprovementPct, Bool.and_eq_false_iff,
      decide_eq_false_iff_not]
    right
    rw [show (13:ℚ)/25 - 1/2 = 1/50 by norm_num,
      abs_of_nonneg (by norm_num : (0:ℚ) ≤ 1/50)]
    norm_num
  exact ⟨h1, h2, by rw [h1, h2]; simp⟩

/-- Claim C4 (amended): the online comparison of `run_validation_cycle` checks
a relative recall improvement of at least 5% and a relative precision change
within ±5%; the offline Phase-4 gate promotes exactly when the relative recall
improvement is at least 5% and the *absolute* precision difference is at most
0.01 (one percentage point) — not the ±5% relative criterion.  For baseline
precision at least 0.2 the offline absolute criterion implies the relative
±5% one, so the offline gate is the stricter of the two there. -/
theorem comparison_thresholds :
    ∀ (baseline candidate : ValidationResult) (pv1 pv2 rv1 rv2 : ℚ),
      (onlineRecallCheck baseline candidate = true ↔
        5 ≤ recallImprovementPct baseline candidate) ∧
      (0 < baseline.recall_score →
        recallImprovementPct baseline candidate =
          (candidate.recall_score - baseline.recall_score) / baseline.recall_score * 100) ∧
      (onlinePrecisionCheck baseline candidate = true ↔
        |precisionChangePct baseline candidate| ≤ 5) ∧
      (0 < baseline.precision →
        precisionChangePct baseline candidate =
          (candidate.precision - baseline.precision) / baseline.precision * 100) ∧
      (offlinePromoteGate pv1 pv2 rv1 rv2 = true ↔
        (5 ≤ offlineRecallImprovementPct rv1 rv2 ∧ |pv2 - pv1| ≤ 1/100)) ∧
      (1/5 ≤ pv1 → offlinePromoteGate pv1 pv2 rv1 rv2 = true →
        5 ≤ offlineRecallImprovementPct rv1 rv2 ∧ |(pv2 - pv1) / pv1 * 100| ≤ 5) := by
  intro baseline candidate pv1 pv2 rv1 rv2
  refine ⟨?_, ?_, ?_, ?_, ?_, ?_⟩
  · simp [onlineRecallCheck]
  · intro h
    rw [recallImprovementPct, if_pos h]
  · simp [onlinePrecisionCheck]
  · intro h
    rw [precisionChangePct, if_pos h]
  · simp [offlinePromoteGate]
  · intro h15 hgate
    have hg := (by simpa [offlinePromoteGate] using hgate :
      5 ≤ offlineRecallImprovementPct rv1 rv2 ∧ |pv2 - pv1| ≤ 1/100)
    refine ⟨hg.1, ?_⟩
    have hpos : 0 < pv1 := lt_of_lt_of_le (by norm_num) h15
    have habs : |(pv2 - pv1) / pv1 * 100| = |pv2 - pv1| / pv1 * 100 := by
      rw [abs_mul, abs_div, abs_of_pos hpos, abs_of_nonneg (by norm_num : (0:ℚ) ≤ 100)]
    rw [habs]
    have h2 : |pv2 - pv1| / pv1 ≤ (1/100) / (1/5) :=
      div_le_div₀ (by norm_num) hg.2 (by norm_num) h15
    calc |pv2 - pv1| / pv1 * 100 ≤ (1/100) / (1/5) * 100 :=
          mul_le_mul_of_nonneg_right h2 (by norm_num)
      _ = 5 := by norm_num

/-- Witness for C4 (amended) at concrete values: a candidate whose absolute
precision difference is 0.005 and whose recall improvement is 20% passes the
offline gate, and the relative precision change is then within ±5%. -/
theorem comparison_thresholds_witness :
    offlinePromoteGate (1/2) (101/200) (1/2) (3/5) = true ∧
      |((101:ℚ)/200 - 1/2) / (1/2) * 100| ≤ 5 := by
  have h := comparison_thresholds dummyValidation dummyValidation (1/2) (101/200) (1/2) (3/5)
  have hgate : offlinePromoteGate (1/2) (101/200) (1/2) (3/5) = true := by
    apply h.2.2.2.2.1.mpr
    constructor
    · rw [offlineRecallImprovementPct]
      norm_num
    · rw [show (101:ℚ)/200 - 1/2 = 1/200 by norm_num,
        abs_of_nonneg (by norm_num : (0:ℚ) ≤ 1/200)]
      norm_num
  exact ⟨hgate, (h.2.2.2.2.2 (by norm_num) hgate).2⟩

/-- Claim C5: `check_performance_alerts` is a total (never-throwing) function
of its `ValidationResult`: it emits exactly one formatted string per violated
threshold — precision below 0.85 (a string starting "LOW PRECISION: "),
recall below 0.75, F1 below 0.80, AUC below 0.85 checked only when the AUC is
positive, and drift above 0.15 — and the empty list exactly when every
threshold passes. -/
theorem check_alerts_spec :
    ∀ r : ValidationResult,
      ((checkPerformanceAlerts r).length =
        (if r.precision < minPrecisionThreshold then 1 else 0) +
        (if r.recall_score < minRecallThreshold then 1 else 0) +
        (if r.f1_score < minF1Threshold then 1 else 0) +
        (if 0 < r.auc_score ∧ r.auc_score < minAucThreshold then 1 else 0) +
        (if driftAlertFires r then 1 else 0)) ∧
      (r.precision < minPrecisionThreshold →
        ∃ s ∈ checkPerformanceAlerts r, ∃ rest, s = "LOW PRECISION: " ++ rest) ∧
      (checkPerformanceAlerts r = [] ↔
        (minPrecisionThreshold ≤ r.precision ∧ minRecallThreshold ≤ r.recall_score ∧
          minF1Threshold ≤ r.f1_score ∧ ¬(0 < r.auc_score ∧ r.auc_score < minAucThreshold) ∧
          driftAlertFires r = false)) := by
  intro r
  refine ⟨?_, ?_, ?_⟩
  · simp only [checkPerformanceAlerts, List.length_append]
    split_ifs <;> simp
  · intro h
    refine ⟨"LOW PRECISION: " ++ toString r.precision ++ " < " ++ toString minPrecisionThreshold,
      ?_, toString r.precision ++ " < " ++ toString minPrecisionThreshold, ?_⟩
    · rw [checkPerformanceAlerts, if_pos h]
      exact List.mem_append_left _ (List.mem_append_left _ (List.mem_append_left _
        (List.mem_append_left _ (List.mem_singleton_self _))))
    · rw [String.append_assoc, String.append_assoc, String.append_assoc]
  · rw [checkPerformanceAlerts]
    simp only [List.append_eq_nil]
    constructor
    · rintro ⟨⟨⟨⟨h1, h2⟩, h3⟩, h4⟩, h5⟩
      refine ⟨?_, ?_, ?_, ?_, ?_⟩
      · exact not_lt.mp (fun hc => by simp [hc] at h1)
      · exact not_lt.mp (fun hc => by simp [hc] at h2)
      · exact not_lt.mp (fun hc => by simp [hc] at h3)
      · exact fun hc => by simp [hc] at h4
      · by_cases hd : driftAlertFires r
        · simp [hd] at h5
        · simpa using hd
    · rintro ⟨g1, g2, g3, g4, g5⟩
      rw [if_neg (not_lt.mpr g1), if_neg (not_lt.mpr g2), if_neg (not_lt.mpr g3),
        if_neg g4, if_neg (by simp [g5])]
      simp

/-- Witness for C5: a result with precision 0.70 (threshold 0.85) yields an
alert starting "LOW PRECISION: ", and a result meeting every threshold yields
the empty list. -/
theorem check_alerts_spec_witness :
    (∃ s ∈ checkPerformanceAlerts
        { timestamp := 0, model_name := "fraud-v1-baseline", precision := 7/10,
          recall_score := 1, f1_score := 1, auc_score := 1, confusion_matrix := [],
          sample_size := 10, drift_score := some 0 },
      ∃ rest, s = "LOW PRECISION: " ++ rest) ∧
    checkPerformanceAlerts
        { timestamp := 0, model_name := "fraud-v2-candidate", precision := 9/10,
          recall_score := 4/5, f1_score := 9/10, auc_score := 9/10, confusion_matrix := [],
          sample_size := 10, drift_score := some (1/10) } = [] := by
  constructor
  · exact (check_alerts_spec _).2.1 (by rw [minPrecisionThreshold]; norm_num)
  · refine (check_alerts_spec _).2.2.mpr ⟨?_, ?_, ?_, ?_, ?_⟩
    · rw [minPrecisionThreshold]; norm_num
    · rw [minRecallThreshold]; norm_num
    · rw [minF1Threshold]; norm_num
    · rw [minAucThreshold]
      rintro ⟨_, hlt⟩
      norm_num at hlt
    · rw [driftAlertFires]
      simp only [decide_eq_false_iff_not, maxDriftThreshold]
      norm_num

/-- Counterexample to claim C3 as stated: with fitted reference statistics in
which no feature has a strictly positive standard deviation (here one feature
with std 0) and a non-empty recent window, every feature is skipped, and
`np.mean` of the resulting empty list is NaN (modelled `none`) — not a float
`≥ 0`. -/
theorem drift_score_counterexample :
    calculateDriftScore [(0, 0)] [[1]] = none ∧
      ¬ ∃ q, calculateDriftScore [(0, 0)] [[1]] = some q ∧ 0 ≤ q := by
  have h : calculateDriftScore [(0, 0)] [[1]] = none := by
    rw [calculateDriftScore]
    simp [driftTerms]
  refine ⟨h, ?_⟩
  rintro ⟨q, hq, _⟩
  rw [h] at hq
  exact absurd hq (by simp)

/-- Claim C3 (amended): for a fitted drift scorer, an empty recent window
scores exactly `0.0`; a non-empty window, *provided at least one reference
feature has strictly positive standard deviation*, scores the arithmetic mean
over exactly the positive-std features of
`|mean(recent) - reference mean| / reference std`, which is `≥ 0` and is
exactly `0.0` when every positive-std feature's recent mean equals its
reference mean.  (When no feature has positive std and the window is
non-empty the source computes `np.mean([])`, i.e. NaN — see the
counterexample.) -/
theorem drift_score_spec :
    ∀ (stats : List (ℚ × ℚ)) (rows : List (List ℚ)),
      (calculateDriftScore stats [] = some 0) ∧
      (rows ≠ [] → (∃ p ∈ stats, 0 < p.2) →
        calculateDriftScore stats rows =
          some ((driftTerms stats rows).sum / ((driftTerms stats rows).length : ℚ)) ∧
        (∀ q, calculateDriftScore stats rows = some q → 0 ≤ q) ∧
        ((∀ j < stats.length, 0 < (stats.getD j (0, 0)).2 →
            colMean rows j = (stats.getD j (0, 0)).1) →
          calculateDriftScore stats rows = some 0)) := by
  intro stats rows
  constructor
  · rw [calculateDriftScore]
    simp
  · intro hrows hpos
    obtain ⟨p, hp, hp2⟩ := hpos
    obtain ⟨i, hi, hig⟩ := List.mem_iff_getElem.mp hp
    have higd : stats.getD i (0, 0) = p := by
      rw [List.getD_eq_getElem?_getD, List.getElem?_eq_getElem hi, hig]
      rfl
    have hterm : (|colMean rows i - p.1| / p.2) ∈ driftTerms stats rows := by
      rw [driftTerms]
      exact List.mem_filterMap.mpr ⟨i, List.mem_range.mpr hi, by rw [higd, if_pos hp2]⟩
    have htne : driftTerms stats rows ≠ [] := List.ne_nil_of_mem hterm
    have hscore : calculateDriftScore stats rows =
        some ((driftTerms stats rows).sum / ((driftTerms stats rows).length : ℚ)) := by
      rw [calculateDriftScore, if_neg (by simpa [List.isEmpty_iff] using hrows),
        if_neg (by simpa [List.isEmpty_iff] using htne)]
    have hmem_shape : ∀ x ∈ driftTerms stats rows,
        ∃ j, j < stats.length ∧ 0 < (stats.getD j (0, 0)).2 ∧
          x = |colMean rows j - (stats.getD j (0, 0)).1| / (stats.getD j (0, 0)).2 := by
      intro x hx
      rw [driftTerms] at hx
      obtain ⟨j, hj, hjx⟩ := List.mem_filterMap.mp hx
      by_cases hps : 0 < (stats.getD j (0, 0)).2
      · rw [if_pos hps] at hjx
        exact ⟨j, List.mem_range.mp hj, hps, (Option.some_inj.mp hjx).symm⟩
      · rw [if_neg hps] at hjx
        exact absurd hjx (by simp)
    refine ⟨hscore, ?_, ?_⟩
    · intro q hq
      rw [hscore] at hq
      obtain rfl := Option.some_inj.mp hq.symm
      apply div_nonneg
      · apply List.sum_nonneg
        intro x hx
        obtain ⟨j, _, hps, rfl⟩ := hmem_shape x hx
        exact div_nonneg (abs_nonneg _) (le_of_lt hps)
      · exact Nat.cast_nonneg _
    · intro hmeans
      rw [hscore]
      have hzero : (driftTerms stats rows).sum = 0 := by
        apply List.sum_eq_zero
        intro x hx
        obtain ⟨j, hj, hps, rfl⟩ := hmem_shape x hx
        rw [hmeans j hj hps, sub_self, abs_zero, zero_div]
      rw [hzero, zero_div]

/-- Witness for C3 (amended) at a concrete input: one feature with reference
mean 3 and std 2, a two-row window whose feature mean is also 3 — no drift,
score exactly `0.0`. -/
theorem drift_score_spec_witness :
    calculateDriftScore [(3, 2)] [[3], [3]] = some 0 := by
  have h := (drift_score_spec [(3, 2)] [[3], [3]]).2 (by simp)
    ⟨(3, 2), by simp, by norm_num⟩
  apply h.2.2
  intro j hj _
  have hj0 : j = 0 := Nat.lt_one_iff.mp (by simpa using hj)
  subst hj0
  show colMean [[3], [3]] 0 = (3 : ℚ)
  rw [colMean]
  norm_num

theorem demo_window (n : ℕ) : windowFilter (demoBuffer n) "m" 100 60 = demoBuffer n := by
  rw [windowFilter]
  apply List.filter_eq_self.mpr
  intro a ha
  rw [demoBuffer] at ha
  obtain ⟨i, _, rfl⟩ := List.mem_map.mp ha
  rw [inWindow, demoRecord]
  simp only [Bool.and_eq_true, beq_self_eq_true, decide_eq_true_eq, Option.isSome_some,
    and_true, true_and]
  norm_num

/-- Claim C8: for every successfully preprocessed transaction,
`send_test_transaction` builds the V2 payload whose `data` field is the flat
list of exactly 30 scaled floats, and the fraud probability extracted from a
successful response is `outputs[0].data[0]`.  The source contradicts the
claim in `scripts/replay_transactions.py`, whose `preprocess_transaction`
wraps the flat list in one extra list (`"data": [scaled_features.tolist()]`),
producing `[[30 floats]]` — not the flat 30-float `data` that the spec calls
out as exact, that the repository's own `scripts/test-v2-format-working.py`
documents, and that every other sender builds.  This theorem evaluates both
payload builders and the response extractor at a concrete transaction. -/
theorem inference_payload_formats :
    payloadDataField (onlineInferencePayload "fraud_features" (List.replicate 30 0)) =
      some (.arr ((List.replicate 30 (0:ℚ)).map .num)) ∧
    isFlatNumArray (.arr ((List.replicate 30 (0:ℚ)).map .num)) 30 = true ∧
    payloadDataField (replayInferencePayload (List.replicate 30 0)) =
      some (.arr [.arr ((List.replicate 30 (0:ℚ)).map .num)]) ∧
    isFlatNumArray (.arr [.arr ((List.replicate 30 (0:ℚ)).map .num)]) 30 = false ∧
    extractFraudProb (.obj [("outputs", .arr [.obj [("name", .str "predictions"),
        ("shape", .arr [.num 1, .num 1]), ("datatype", .str "FP32"),
        ("data", .arr [.num (9/10)])]])]) = some (9/10) := by
  refine ⟨?_, ?_, ?_, ?_, ?_⟩ <;> rfl

/-- Claim C2: `validate_model_performance` returns `None` exactly when fewer
than 10 buffered records match the model identity, have feedback received,
carry a ground-truth label, and fall inside the lookback window; with 9
matching records it returns `None` and with 10 it returns a result.  The
return is by value (`Option`), a soft fail, not an exception: the embedded
computation is total.  (The source wraps the metric block in a `try/except`
returning `None`; that path cannot fire for the binary-labeled records this
pipeline buffers, and is not part of the minimum-sample contract.) -/
theorem evaluator_min_sample_guard :
    (∀ (buffer : List TransactionResult) (stats : List (ℚ × ℚ)) (name : String)
      (now lookback : ℚ),
      (validateModelPerformance buffer stats name now lookback = none ↔
        (windowFilter buffer name now lookback).length < minimumSampleSize)) ∧
    validateModelPerformance (demoBuffer 9) [] "m" 100 60 = none ∧
    (validateModelPerformance (demoBuffer 10) [] "m" 100 60).isSome = true := by
  have hgen : ∀ (buffer : List TransactionResult) (stats : List (ℚ × ℚ)) (name : String)
      (now lookback : ℚ),
      (validateModelPerformance buffer stats name now lookback = none ↔
        (windowFilter buffer name now lookback).length < minimumSampleSize) := by
    intro buffer stats name now lookback
    by_cases h : (windowFilter buffer name now lookback).length < minimumSampleSize
    · rw [validateModelPerformance, if_pos h]
      simpa using h
    · rw [validateModelPerformance, if_neg h]
      simp [h]
  refine ⟨hgen, ?_, ?_⟩
  · apply (hgen _ _ _ _ _).mpr
    rw [demo_window 9]
    simp [demoBuffer, minimumSampleSize]
  · apply Option.ne_none_iff_isSome.mp
    intro hnone
    have := (hgen _ _ _ _ _).mp hnone
    rw [demo_window 10] at this
    simp [demoBuffer, minimumSampleSize] at this

/-- Witness for C2 at a concrete input: the general guard instantiated on the
9-record demonstration buffer. -/
theorem evaluator_min_sample_guard_witness :
    validateModelPerformance (demoBuffer 9) [(1, 1)] "m" 100 60 = none := by
  apply (evaluator_min_sample_guard.1 (demoBuffer 9) [(1, 1)] "m" 100 60).mpr
  rw [demo_window 9]
  simp [demoBuffer, minimumSampleSize]

theorem ratio_bounds (a b : ℕ) :
    0 ≤ (if a + b = 0 then (0:ℚ) else (a:ℚ) / ((a:ℚ) + (b:ℚ))) ∧
      (if a + b = 0 then (0:ℚ) else (a:ℚ) / ((a:ℚ) + (b:ℚ))) ≤ 1 := by
  by_cases h : a + b = 0
  · rw [if_pos h]
    norm_num
  · rw [if_neg h]
    have hb : (0:ℚ) < (a:ℚ) + (b:ℚ) := by
      have h1 : 0 < a + b := Nat.pos_of_ne_zero h
      exact_mod_cast h1
    exact ⟨div_nonneg (Nat.cast_nonneg a) (le_of_lt hb),
      (div_le_one hb).mpr (le_add_of_nonneg_right (Nat.cast_nonneg b))⟩

theorem f1_bounds (yt yp : List ℤ) : 0 ≤ f1Score yt yp ∧ f1Score yt yp ≤ 1 := by
  rw [f1Score]
  by_cases h : 2 * tpCount yt yp + fpCount yt yp + fnCount yt yp = 0
  · rw [if_pos h]
    norm_num
  · rw [if_neg h]
    have hb : (0:ℚ) < 2 * (tpCount yt yp : ℚ) + (fpCount yt yp : ℚ) + (fnCount yt yp : ℚ) := by
      have h1 : 0 < 2 * tpCount yt yp + fpCount yt yp + fnCount yt yp := Nat.pos_of_ne_zero h
      exact_mod_cast h1
    refine ⟨div_nonneg (by positivity) (le_of_lt hb), (div_le_one hb).mpr ?_⟩
    have h2 : (0:ℚ) ≤ (fpCount yt yp : ℚ) := Nat.cast_nonneg _
    have h3 : (0:ℚ) ≤ (fnCount yt yp : ℚ) := Nat.cast_nonneg _
    linarith

theorem f1_harmonic (yt yp : List ℤ) :
    (precisionScore yt yp = 0 ∧ recallScore yt yp = 0 → f1Score yt yp = 0) ∧
    (¬(precisionScore yt yp = 0 ∧ recallScore yt yp = 0) →
      f1Score yt yp = 2 * precisionScore yt yp * recallScore yt yp /
        (precisionScore yt yp + recallScore yt yp)) := by
  by_cases ha : tpCount yt yp = 0
  · have hp : precisionScore yt yp = 0 := by
      rw [precisionScore]
      by_cases h : tpCount yt yp + fpCount yt yp = 0
      · rw [if_pos h]
      · rw [if_neg h, ha]
        simp
    have hr : recallScore yt yp = 0 := by
      rw [recallScore]
      by_cases h : tpCount yt yp + fnCount yt yp = 0
      · rw [if_pos h]
      · rw [if_neg h, ha]
        simp
    have hf : f1Score yt yp = 0 := by
      rw [f1Score]
      by_cases h : 2 * tpCount yt yp + fpCount yt yp + fnCount yt yp = 0
      · rw [if_pos h]
      · rw [if_neg h, ha]
        simp
    exact ⟨fun _ => hf, fun hc => absurd ⟨hp, hr⟩ hc⟩
  · have hA : (0:ℚ) < (tpCount yt yp : ℚ) := by exact_mod_cast Nat.pos_of_ne_zero ha
    have hB : (0:ℚ) ≤ (fpCount yt yp : ℚ) := Nat.cast_nonneg _
    have hC : (0:ℚ) ≤ (fnCount yt yp : ℚ) := Nat.cast_nonneg _
    have hAB : (0:ℚ) < (tpCount yt yp : ℚ) + (fpCount yt yp : ℚ) := by linarith
    have hAC : (0:ℚ) < (tpCount yt yp : ℚ) + (fnCount yt yp : ℚ) := by linarith
    have hp : precisionScore yt yp =
        (tpCount yt yp : ℚ) / ((tpCount yt yp : ℚ) + (fpCount yt yp : ℚ)) := by
      rw [precisionScore, if_neg (by omega)]
    have hr : recallScore yt yp =
        (tpCount yt yp : ℚ) / ((tpCount yt yp : ℚ) + (fnCount yt yp : ℚ)) := by
      rw [recallScore, if_neg (by omega)]
    have hf : f1Score yt yp = 2 * (tpCount yt yp : ℚ) /
        (2 * (tpCount yt yp : ℚ) + (fpCount yt yp : ℚ) + (fnCount yt yp : ℚ)) := by
      rw [f1Score, if_neg (by omega)]
    have hppos : 0 < precisionScore yt yp := hp ▸ div_pos hA hAB
    refine ⟨fun hc => absurd hc.1 (ne_of_gt hppos), fun _ => ?_⟩
    rw [hp, hr, hf]
    have hprsum : (tpCount yt yp : ℚ) / ((tpCount yt yp : ℚ) + (fpCount yt yp : ℚ)) +
        (tpCount yt yp : ℚ) / ((tpCount yt yp : ℚ) + (fnCount yt yp : ℚ)) ≠ 0 :=
      ne_of_gt (add_pos (div_pos hA hAB) (div_pos hA hAC))
    field_simp
    ring

theorem countP_double_sum (s : Finset ℤ) :
    ∀ ps : List (ℤ × ℤ), (∀ p ∈ ps, p.1 ∈ s ∧ p.2 ∈ s) →
      (∑ i ∈ s, ∑ j ∈ s, (ps.countP (fun p => p.1 == i && p.2 == j))) = ps.length
  | [], _ => by simp
  | a :: ps, h => by
    have ha := h a (List.mem_cons_self a ps)
    have ih := countP_double_sum s ps (fun p hp => h p (List.mem_cons_of_mem a hp))
    simp only [List.countP_cons]
    rw [Finset.sum_congr rfl (fun i _ => Finset.sum_add_distrib), Finset.sum_add_distrib, ih]
    have hone : (∑ i ∈ s, ∑ j ∈ s,
        (if (a.1 == i && a.2 == j) = true then (1:ℕ) else 0)) = 1 := by
      have hin : ∀ i ∈ s, (∑ j ∈ s, if (a.1 == i && a.2 == j) = true then (1:ℕ) else 0) =
          if a.1 = i then 1 else 0 := by
        intro i _
        by_cases hi : a.1 = i
        · simp only [hi, beq_self_eq_true, Bool.true_and, beq_iff_eq]
          rw [Finset.sum_ite_eq s a.2 (fun _ => 1), if_pos ha.2]
          simp
        · have hne : (a.1 == i) = false := beq_eq_false_iff_ne.mpr hi
          simp [hne, hi]
      rw [Finset.sum_congr rfl hin, Finset.sum_ite_eq s a.1 (fun _ => 1), if_pos ha.1]
    rw [hone]
    simp [Nat.add_comm]

theorem cm_sum (yt yp : List ℤ) (h : yt.length = yp.length) :
    ((confusionMatrix yt yp).map List.sum).sum = yt.length := by
  have hnd : (cmLabels yt yp).Nodup := by
    rw [cmLabels]
    exact (List.perm_insertionSort (· ≤ ·) ((yt ++ yp).dedup)).symm.nodup
      (List.nodup_dedup _)
  have hmm : ∀ p ∈ yt.zip yp,
      p.1 ∈ (cmLabels yt yp).toFinset ∧ p.2 ∈ (cmLabels yt yp).toFinset := by
    intro p hp
    have hz := List.of_mem_zip hp
    constructor <;>
      rw [List.mem_toFinset, cmLabels, (List.perm_insertionSort _ _).mem_iff,
        List.mem_dedup]
    · exact List.mem_append_left _ hz.1
    · exact List.mem_append_right _ hz.2
  rw [confusionMatrix, List.map_map, ← List.sum_toFinset _ hnd]
  rw [show (cmLabels yt yp).toFinset.sum
      (List.sum ∘ fun i => List.map (fun j => cmEntry yt yp i j) (cmLabels yt yp)) =
      ∑ i ∈ (cmLabels yt yp).toFinset, ∑ j ∈ (cmLabels yt yp).toFinset, cmEntry yt yp i j from
    Finset.sum_congr rfl (fun i _ => by
      simp only [Function.comp_apply]
      exact (List.sum_toFinset _ hnd).symm)]
  simp only [cmEntry]
  rw [countP_double_sum (cmLabels yt yp).toFinset (yt.zip yp) hmm, List.length_zip, h]
  simp

/-- Claim C1: whenever `validate_model_performance` returns a result (i.e. the
window holds at least the minimum sample count), the returned
`ValidationResult` satisfies: precision is `TP/(TP+FP)` and recall is
`TP/(TP+FN)`, each `0` when its denominator is `0`; F1 is the harmonic mean of
precision and recall (`0` when both are `0`); AUC equals the ROC-AUC of the
predicted probabilities against the labels when both classes are present among
the window's labels and is exactly `0.0` otherwise; the confusion-matrix
entries (naturals by construction) sum exactly to `sample_size`; and
precision, recall and F1 all lie in `[0, 1]`. -/
theorem evaluator_result_properties :
    ∀ (buffer : List TransactionResult) (stats : List (ℚ × ℚ)) (name : String)
      (now lookback : ℚ),
      minimumSampleSize ≤ (windowFilter buffer name now lookback).length →
      (validateModelPerformance buffer stats name now lookback =
        some (evalResult buffer stats name now lookback)) ∧
      ((tpCount (windowTrue (windowFilter buffer name now lookback))
          (windowPred (windowFilter buffer name now lookback)) +
        fpCount (windowTrue (windowFilter buffer name now lookback))
          (windowPred (windowFilter buffer name now lookback)) = 0 →
        (evalResult buffer stats name now lookback).precision = 0) ∧
       (tpCount (windowTrue (windowFilter buffer name now lookback))
          (windowPred (windowFilter buffer name now lookback)) +
        fpCount (windowTrue (windowFilter buffer name now lookback))
          (windowPred (windowFilter buffer name now lookback)) ≠ 0 →
        (evalResult buffer stats name now lookback).precision =
          (tpCount (windowTrue (windowFilter buffer name now lookback))
            (windowPred (windowFilter buffer name now lookback)) : ℚ) /
          ((tpCount (windowTrue (windowFilter buffer name now lookback))
            (windowPred (windowFilter buffer name now lookback)) : ℚ) +
           (fpCount (windowTrue (windowFilter buffer name now lookback))
            (windowPred (windowFilter buffer name now lookback)) : ℚ)))) ∧
      ((tpCount (windowTrue (windowFilter buffer name now lookback))
          (windowPred (windowFilter buffer name now lookback)) +
        fnCount (windowTrue (windowFilter buffer name now lookback))
          (windowPred (windowFilter buffer name now lookback)) = 0 →
        (evalResult buffer stats name now lookback).recall_score = 0) ∧
       (tpCount (windowTrue (windowFilter buffer name now lookback))
          (windowPred (windowFilter buffer name now lookback)) +
        fnCount (windowTrue (windowFilter buffer name now lookback))
          (windowPred (windowFilter buffer name now lookback)) ≠ 0 →
        (evalResult buffer stats name now lookback).recall_score =
          (tpCount (windowTrue (windowFilter buffer name now lookback))
            (windowPred (windowFilter buffer name now lookback)) : ℚ) /
          ((tpCount (windowTrue (windowFilter buffer name now lookback))
            (windowPred (windowFilter buffer name now lookback)) : ℚ) +
           (fnCount (windowTrue (windowFilter buffer name now lookback))
            (windowPred (windowFilter buffer name now lookback)) : ℚ)))) ∧
      (((evalResult buffer stats name now lookback).precision = 0 ∧
          (evalResult buffer stats name now lookback).recall_score = 0 →
        (evalResult buffer stats name now lookback).f1_score = 0) ∧
       (¬((evalResult buffer stats name now lookback).precision = 0 ∧
          (evalResult buffer stats name now lookback).recall_score = 0) →
        (evalResult buffer stats name now lookback).f1_score =
          2 * (evalResult buffer stats name now lookback).precision *
            (evalResult buffer stats name now lookback).recall_score /
          ((evalResult buffer stats name now lookback).precision +
            (evalResult buffer stats name now lookback).recall_score))) ∧
      ((1 < (windowTrue (windowFilter buffer name now lookback)).dedup.length →
        (evalResult buffer stats name now lookback).auc_score =
          rocAucScore (windowTrue (windowFilter buffer name now lookback))
            (windowProb (windowFilter buffer name now lookback))) ∧
       ((windowTrue (windowFilter buffer name now lookback)).dedup.length ≤ 1 →
        (evalResult buffer stats name now lookback).auc_score = 0)) ∧
      (((evalResult buffer stats name now lookback).confusion_matrix.map List.sum).sum =
        (evalResult buffer stats name now lookback).sample_size) ∧
      (0 ≤ (evalResult buffer stats name now lookback).precision ∧
        (evalResult buffer stats name now lookback).precision ≤ 1) ∧
      (0 ≤ (evalResult buffer stats name now lookback).recall_score ∧
        (evalResult buffer stats name now lookback).recall_score ≤ 1) ∧
      (0 ≤ (evalResult buffer stats name now lookback).f1_score ∧
        (evalResult buffer stats name now lookback).f1_score ≤ 1) := by
  intro buffer stats name lookback now h10
  refine ⟨?_, ⟨?_, ?_⟩, ⟨?_, ?_⟩, f1_harmonic _ _, ⟨?_, ?_⟩, ?_, ratio_bounds _ _,
    ratio_bounds _ _, f1_bounds _ _⟩
  · rw [validateModelPerformance, if_neg (not_lt.mpr h10)]
  · intro h
    show precisionScore _ _ = 0
    rw [precisionScore, if_pos h]
  · intro h
    show precisionScore _ _ = _
    rw [precisionScore, if_neg h]
  · intro h
    show recallScore _ _ = 0
    rw [recallScore, if_pos h]
  · intro h
    show recallScore _ _ = _
    rw [recallScore, if_neg h]
  · intro h
    show (if 1 < _ then rocAucScore _ _ else 0) = rocAucScore _ _
    rw [if_pos h]
  · intro h
    show (if 1 < _ then rocAucScore _ _ else 0) = 0
    rw [if_neg (not_lt.mpr h)]
  · show ((confusionMatrix _ _).map List.sum).sum = (windowFilter _ _ _ _).length
    rw [cm_sum _ _ (by rw [windowTrue, windowPred, List.length_map, List.length_map])]
    rw [windowTrue, List.length_map]

/-- Witness for C1: the evaluator on a concrete 10-record buffer; the minimum
sample hypothesis is discharged by computation. -/
theorem evaluator_result_properties_witness :
    (validateModelPerformance (demoBuffer 10) [(1, 1)] "m" 100 60 =
      some (evalResult (demoBuffer 10) [(1, 1)] "m" 100 60)) ∧
    (0 ≤ (evalResult (demoBuffer 10) [(1, 1)] "m" 100 60).precision ∧
      (evalResult (demoBuffer 10) [(1, 1)] "m" 100 60).precision ≤ 1) ∧
    ((evalResult (demoBuffer 10) [(1, 1)] "m" 100 60).confusion_matrix.map List.sum).sum =
      (evalResult (demoBuffer 10) [(1, 1)] "m" 100 60).sample_size := by
  have h := evaluator_result_properties (demoBuffer 10) [(1, 1)] "m" 100 60
    (by rw [demo_window 10]; simp [demoBuffer, minimumSampleSize])
  exact ⟨h.1, h.2.2.2.2.2.2.1, h.2.2.2.2.2.1⟩
